import Mathlib

/-!
Shallow embedding of the forecasting and segmentation analysis engine of the
indonesian-demographics repository (src/src/analysis/arima_forecaster.py,
src/src/analysis/quadrant_analysis.py, src/src/analysis/forecast_expenditure.py),
together with theorems settling the frozen claims about it.

Machine floats of the source are modelled as exact rationals; the one place
where IEEE non-finite values are observable behaviour (division by a zero
observation in the MAPE metric) is modelled by an explicit value type `NpF`
carrying infinities and NaN.
-/

namespace IndoDemo

/-! ### ARIMA grid search (ARIMAForecaster.grid_search) -/

/-- An ARIMA order triple (p, d, q). -/
abbrev ModelOrder := ℕ × ℕ × ℕ

/-- The configured information criterion: config key information_criterion,
either the string aic (default) or bic. -/
inductive ICChoice
  | aic
  | bic
deriving DecidableEq

/-- The scalar diagnostics of one successfully fitted candidate:
fitted_model.aic and fitted_model.bic. -/
structure FitDiag where
  aic : ℚ
  bic : ℚ
deriving DecidableEq

/-- ic_value = fitted_model.aic if self.ic == aic else fitted_model.bic. -/
def icValue (ic : ICChoice) (d : FitDiag) : ℚ :=
  match ic with
  | .aic => d.aic
  | .bic => d.bic

/-- The candidate enumeration itertools.product(p_range, d_range, q_range)
with p_range = range(0, max_p + 1) and so on: p varies slowest, q fastest. -/
def candidates (max_p max_d max_q : ℕ) : List ModelOrder :=
  (List.range (max_p + 1)).flatMap fun p =>
    (List.range (max_d + 1)).flatMap fun d =>
      (List.range (max_q + 1)).map fun q => (p, d, q)

/-- One row of the grid-search results table: columns p, d, q, AIC, BIC, IC
(the order string column is determined by p, d, q and not modelled). -/
structure Row where
  p : ℕ
  d : ℕ
  q : ℕ
  aic : ℚ
  bic : ℚ
  ic : ℚ
deriving DecidableEq

/-- The row appended to results for a successful fit of candidate c. -/
def rowOf (ic : ICChoice) (s : ModelOrder × FitDiag) : Row :=
  ⟨s.1.1, s.1.2.1, s.1.2.2, s.2.aic, s.2.bic, icValue ic s.2⟩

/-- A successful candidate paired with its configured-criterion value. -/
def succIC (ic : ICChoice) (s : ModelOrder × FitDiag) : ModelOrder × ℚ :=
  (s.1, icValue ic s.2)

/-- The loop state of grid_search: the results list and the best-so-far
(best_order together with best_ic); best = none models best_ic = np.inf
with no retained order. -/
structure GridState where
  results : List Row
  best : Option (ModelOrder × ℚ)
deriving DecidableEq

/-- One iteration of the grid-search loop body. A candidate whose fit raises
(fit c = none) leaves the state unchanged (the except: continue branch);
a successful fit appends a results row and replaces the best-so-far exactly
when ic_value < best_ic (strict comparison). -/
def gridStep (ic : ICChoice) (fit : ModelOrder → Option FitDiag)
    (st : GridState) (c : ModelOrder) : GridState :=
  match fit c with
  | none => st
  | some diag =>
    let v := icValue ic diag
    let best' : Option (ModelOrder × ℚ) :=
      match st.best with
      | none => some (c, v)
      | some (b, bv) => if v < bv then some (c, v) else some (b, bv)
    ⟨st.results ++ [rowOf ic (c, diag)], best'⟩

/-- ARIMAForecaster.grid_search, with the ARIMA fit step abstracted as an
oracle fit : ModelOrder → Option FitDiag (none models a raised exception).
Starts from empty results and best_ic = np.inf (best = none). -/
def grid_search (max_p max_d max_q : ℕ) (ic : ICChoice)
    (fit : ModelOrder → Option FitDiag) : GridState :=
  (candidates max_p max_d max_q).foldl (gridStep ic fit) ⟨[], none⟩

/-- The successfully fitted candidates, in enumeration order, with their
diagnostics. -/
def successes (fit : ModelOrder → Option FitDiag) (cands : List ModelOrder) :
    List (ModelOrder × FitDiag) :=
  cands.filterMap fun c => (fit c).map fun d => (c, d)

/-- Left fold keeping the incumbent unless a strictly smaller criterion value
appears: the best-so-far recurrence of the grid-search loop. -/
def minFold (b : ModelOrder × ℚ) : List (ModelOrder × ℚ) → ModelOrder × ℚ
  | [] => b
  | y :: ys => minFold (if y.2 < b.2 then y else b) ys

/-- The retained best over a list of (candidate, criterion) pairs. -/
def runBest : List (ModelOrder × ℚ) → Option (ModelOrder × ℚ)
  | [] => none
  | x :: xs => some (minFold x xs)

/-- Stable insertion into a sorted list, ascending under r. -/
def insertOrd {α : Type} (r : α → α → Prop) [DecidableRel r] (x : α) :
    List α → List α
  | [] => [x]
  | y :: ys => if r x y then x :: y :: ys else y :: insertOrd r x ys

/-- Stable insertion sort, ascending under r; models the sorts performed by
pandas sort_values and the sorted order used by the median. -/
def sortOrd {α : Type} (r : α → α → Prop) [DecidableRel r] (l : List α) :
    List α :=
  l.foldr (insertOrd r) []

/-- The tail of grid_search: results_df = pd.DataFrame(results).sort_values(IC).
When results is empty the real code raises (the empty DataFrame has no IC
column), the failure the spec names NoConvergentModelError; modelled as
Except.error. -/
def grid_search_df (max_p max_d max_q : ℕ) (ic : ICChoice)
    (fit : ModelOrder → Option FitDiag) : Except String (List Row) :=
  let st := grid_search max_p max_d max_q ic fit
  if st.results = [] then Except.error "no convergent model"
  else Except.ok (sortOrd (fun a b => a.ic ≤ b.ic) st.results)

/-! ### Forecasting (ARIMAForecaster.forecast, forecast_region,
forecast_national_expenditure) -/

/-- ARIMAForecaster.forecast: raises ValueError when no model is fitted
(self.best_model is None), otherwise delegates to the fitted model's
get_forecast(steps). The fitted-model type and its get_forecast method are
abstracted as parameters; the returned pair is (predicted_mean, conf_int). -/
def ARIMAForecaster.forecast {M : Type} (best_model : Option M)
    (get_forecast : M → ℕ → List ℚ × List (ℚ × ℚ)) (steps : ℕ) :
    Except String (List ℚ × List (ℚ × ℚ)) :=
  match best_model with
  | none => Except.error "Model not fitted. Call fit() first."
  | some m => Except.ok (get_forecast m steps)

/-- np.arange(a, b) with unit step over the integers: a, a+1, ..., b-1. -/
def arange (a b : ℤ) : List ℤ :=
  (List.range (b - a).toNat).map fun i : ℕ => a + (i : ℤ)

/-- The forecast period labels np.arange(last_year + 1,
last_year + forecast_steps + 1), computed identically in forecast_region and
forecast_national_expenditure. -/
def forecast_years (last_year : ℤ) (steps : ℕ) : List ℤ :=
  arange (last_year + 1) (last_year + steps + 1)

/-- One row of the forecast DataFrame assembled by forecast_region (and,
without the region_name column, by forecast_national_expenditure). -/
structure FRow where
  region_name : String
  year : ℤ
  forecast : ℚ
  lower_ci : ℚ
  upper_ci : ℚ
deriving DecidableEq

/-- The pd.DataFrame built by forecast_region: one row per forecast year,
pairing each year with the point forecast and the two confidence-interval
columns taken positionally from conf_int. -/
def mk_forecast_df (region_name : String) (last_year : ℤ) (steps : ℕ)
    (mean : List ℚ) (ci : List (ℚ × ℚ)) : List FRow :=
  List.zipWith (fun y p => ⟨region_name, y, p.1, p.2.1, p.2.2⟩)
    (forecast_years last_year steps) (mean.zip ci)

/-- Modelled from the spec: the confidence-interval computation of
statsmodels get_forecast(steps).conf_int() is not part of this repository;
per the spec it is a two-sided interval at a fixed 95% level under a normal
approximation, symmetric around the point forecast with half-width
z * (forecast standard error). Each produced row is
(lower_bound, point_forecast, upper_bound). -/
def conf_int_rows (z : ℚ) (mean se : List ℚ) : List (ℚ × ℚ × ℚ) :=
  List.zipWith (fun m s => (m - z * s, m, m + z * s)) mean se

/-- Modelled from the spec: the two-sided 95% normal critical value 1.96. -/
def z95 : ℚ := 196 / 100

/-! ### Quadrant analysis (quadrant_analysis.py) -/

/-- One region of the joined cross-section of run_quadrant_analysis:
region_name, tfr, expenditure. -/
structure XRegion where
  region_name : String
  tfr : ℚ
  expenditure : ℚ
deriving DecidableEq

/-- The QuadrantAnalyzer configuration: per-dimension threshold methods
(median, mean, or anything else meaning the fixed constant), the fixed
fallbacks, and the four segment display names. -/
structure QuadrantConfig where
  tfr_threshold_method : String
  exp_threshold_method : String
  tfr_threshold_fixed : ℚ
  exp_threshold_fixed : ℚ
  high_tfr_high_exp : String
  high_tfr_low_exp : String
  low_tfr_high_exp : String
  low_tfr_low_exp : String
deriving DecidableEq

/-- The configuration defaults of QuadrantAnalyzer.__init__ together with the
segments.get display-name defaults used in assign_segments. -/
def defaultQuadrantConfig : QuadrantConfig :=
  ⟨"median", "median", 21 / 10, 10000, "Stars", "Developing", "Cash Cows",
    "Saturated"⟩

/-- pandas Series.median: the middle element of the sorted values, or the
average of the two middle elements for an even count (0 for the empty list,
where pandas reports NaN; no theorem relies on that case). -/
def series_median (l : List ℚ) : ℚ :=
  let s := sortOrd (fun a b : ℚ => a ≤ b) l
  let n := s.length
  if n = 0 then 0
  else if n % 2 = 1 then s.getD (n / 2) 0
  else (s.getD (n / 2 - 1) 0 + s.getD (n / 2) 0) / 2

/-- pandas Series.mean / np.mean: sum divided by count (0 for the empty
list, where pandas reports NaN; no theorem relies on that case). -/
def series_mean (l : List ℚ) : ℚ := l.sum / l.length

/-- QuadrantAnalyzer.calculate_thresholds. -/
def calculate_thresholds (cfg : QuadrantConfig) (df : List XRegion) :
    ℚ × ℚ :=
  let tfr_threshold :=
    if cfg.tfr_threshold_method = "median" then
      series_median (df.map (·.tfr))
    else if cfg.tfr_threshold_method = "mean" then
      series_mean (df.map (·.tfr))
    else cfg.tfr_threshold_fixed
  let exp_threshold :=
    if cfg.exp_threshold_method = "median" then
      series_median (df.map (·.expenditure))
    else if cfg.exp_threshold_method = "mean" then
      series_mean (df.map (·.expenditure))
    else cfg.exp_threshold_fixed
  (tfr_threshold, exp_threshold)

/-- The np.select of assign_segments: the four threshold conditions in
source order (>= on the high side, < on the low side), first match wins,
default label Unknown. -/
def segment_label (cfg : QuadrantConfig) (tfr_threshold exp_threshold : ℚ)
    (r : XRegion) : String :=
  if tfr_threshold ≤ r.tfr ∧ exp_threshold ≤ r.expenditure then
    cfg.high_tfr_high_exp
  else if tfr_threshold ≤ r.tfr ∧ r.expenditure < exp_threshold then
    cfg.high_tfr_low_exp
  else if r.tfr < tfr_threshold ∧ exp_threshold ≤ r.expenditure then
    cfg.low_tfr_high_exp
  else if r.tfr < tfr_threshold ∧ r.expenditure < exp_threshold then
    cfg.low_tfr_low_exp
  else "Unknown"

/-- One row of the segmented DataFrame: the input columns plus segment. -/
structure SegRow where
  region_name : String
  tfr : ℚ
  expenditure : ℚ
  segment : String
deriving DecidableEq

/-- QuadrantAnalyzer.assign_segments. -/
def assign_segments (cfg : QuadrantConfig) (tfr_threshold exp_threshold : ℚ)
    (df : List XRegion) : List SegRow :=
  df.map fun r =>
    ⟨r.region_name, r.tfr, r.expenditure,
      segment_label cfg tfr_threshold exp_threshold r⟩

/-- Sample variance with the pandas default ddof=1 (0 when fewer than two
members, where pandas reports NaN). The source's std statistic is the square
root of this value, irrational in general, so the statistics table records
the variance that determines it. -/
def sample_var (l : List ℚ) : ℚ :=
  if l.length ≤ 1 then 0
  else (l.map fun x => (x - series_mean l) ^ 2).sum / ((l.length : ℚ) - 1)

/-- Rounding to two decimals, the .round(2) of get_segment_statistics
(Mathlib round is half-away-from-zero at ties where numpy rounds half to
even, a difference visible only at exact half-cent values and irrelevant to
the claims below). -/
def round2 (q : ℚ) : ℚ := (round (q * 100) : ℤ) / 100

/-- One row of the segment-statistics table of get_segment_statistics:
count plus mean/median/variance per dimension for one segment (means and
medians rounded as in the source, std recorded at the variance level). -/
structure StatRow where
  segment : String
  count : ℕ
  tfr_mean : ℚ
  tfr_median : ℚ
  tfr_var : ℚ
  exp_mean : ℚ
  exp_median : ℚ
  exp_var : ℚ
deriving DecidableEq

/-- QuadrantAnalyzer.get_segment_statistics: group by segment (pandas
groupby sorts the group keys ascending; absent segments produce no row),
then count and per-dimension statistics for each group. -/
def get_segment_statistics (df : List SegRow) : List StatRow :=
  let keys := sortOrd (fun a b : String => a ≤ b) (df.map (·.segment)).dedup
  keys.map fun s =>
    let grp := df.filter fun r => r.segment = s
    let tfrs := grp.map (·.tfr)
    let exps := grp.map (·.expenditure)
    ⟨s, grp.length, round2 (series_mean tfrs), round2 (series_median tfrs),
      sample_var tfrs, round2 (series_mean exps),
      round2 (series_median exps), sample_var exps⟩

/-- The QuadrantAnalyzer part of run_quadrant_analysis on a joined
cross-section: thresholds, segment assignment, segment statistics. -/
def run_quadrant (cfg : QuadrantConfig) (df : List XRegion) :
    List SegRow × List StatRow :=
  let t := calculate_thresholds cfg df
  let seg := assign_segments cfg t.1 t.2 df
  (seg, get_segment_statistics seg)

/-- The 4-region cross-section of the spec's quadrant test: A (3.0, 15000),
B (1.5, 15000), C (3.0, 5000), D (1.5, 5000). -/
def quadrant4 : List XRegion :=
  [⟨"A", 3, 15000⟩, ⟨"B", 3 / 2, 15000⟩, ⟨"C", 3, 5000⟩,
    ⟨"D", 3 / 2, 5000⟩]

/-! ### Regional forecasting loop (forecast_region,
forecast_regional_expenditure) -/

/-- One row of the cleaned expenditure table consumed by forecast_region:
region_name, year, and the value column being forecast. -/
structure Obs where
  region_name : String
  year : ℤ
  value : ℚ
deriving DecidableEq

/-- region_data = df[df[region_name] == region].sort_values(time_col). -/
def region_data (df : List Obs) (region_name : String) : List Obs :=
  sortOrd (fun a b => a.year ≤ b.year)
    (df.filter fun o => o.region_name = region_name)

/-- forecast_region: returns None when the region has fewer than 5
historical rows, otherwise fits and forecasts inside a try block whose
failure (modelled by the oracle returning none) also yields None; on
success it assembles the forecast DataFrame for the region. The
fit-and-forecast step (forecaster.fit followed by forecaster.forecast) is
abstracted as an oracle from the value series. -/
def forecast_region (df : List Obs) (region_name : String)
    (fit_forecast : List ℚ → Option (List ℚ × List (ℚ × ℚ)))
    (forecast_steps : ℕ) : Option (List FRow) :=
  if (region_data df region_name).length < 5 then none
  else
    match fit_forecast ((region_data df region_name).map (·.value)) with
    | none => none
    | some mc =>
      match ((region_data df region_name).map (·.year)).max? with
      | none => none
      | some last_year =>
        some (mk_forecast_df region_name last_year forecast_steps mc.1 mc.2)

/-- One iteration of the regional loop of forecast_regional_expenditure:
a successful forecast is appended to the collected frames and logged as a
success; a None is logged as a skip and the loop continues. -/
def regional_step (df : List Obs)
    (fit_forecast : List ℚ → Option (List ℚ × List (ℚ × ℚ)))
    (forecast_steps : ℕ)
    (acc : List (List FRow) × List (String × Bool)) (r : String) :
    List (List FRow) × List (String × Bool) :=
  match forecast_region df r fit_forecast forecast_steps with
  | some fdf => (acc.1 ++ [fdf], acc.2 ++ [(r, true)])
  | none => (acc.1, acc.2 ++ [(r, false)])

/-- The regional loop of forecast_regional_expenditure over the selected
region names: returns the collected per-region forecast frames and the
per-region success log (the printed check/cross marks). -/
def forecast_regional (df : List Obs) (regions : List String)
    (fit_forecast : List ℚ → Option (List ℚ × List (ℚ × ℚ)))
    (forecast_steps : ℕ) :
    List (List FRow) × List (String × Bool) :=
  regions.foldl (regional_step df fit_forecast forecast_steps) ([], [])

/-! ### Accuracy metrics (ARIMAForecaster.get_metrics) -/

/-- A numpy float value as far as get_metrics can observe it: an exact
finite rational, a signed infinity, or NaN. Needed because get_metrics
divides by the observed values, and numpy division by zero yields a
non-finite float (under a RuntimeWarning that the module-level
warnings.filterwarnings call suppresses) instead of raising. -/
inductive NpF
  | fin (q : ℚ)
  | inf
  | ninf
  | nan
deriving DecidableEq

/-- IEEE division of finite a by finite b: finite quotient when b is not 0,
otherwise signed infinity (or NaN for 0/0). -/
def npDiv (a b : ℚ) : NpF :=
  if b = 0 then
    if 0 < a then NpF.inf else if a < 0 then NpF.ninf else NpF.nan
  else NpF.fin (a / b)

/-- IEEE absolute value. -/
def npAbs : NpF → NpF
  | .fin q => .fin |q|
  | .inf => .inf
  | .ninf => .inf
  | .nan => .nan

/-- IEEE addition on the modelled values. -/
def npAdd : NpF → NpF → NpF
  | .nan, _ => .nan
  | _, .nan => .nan
  | .inf, .ninf => .nan
  | .ninf, .inf => .nan
  | .inf, _ => .inf
  | _, .inf => .inf
  | .ninf, _ => .ninf
  | _, .ninf => .ninf
  | .fin a, .fin b => .fin (a + b)

/-- np.sum over the modelled values. -/
def npSum (l : List NpF) : NpF := l.foldl npAdd (NpF.fin 0)

/-- Division of a sum by a (natural) count, the tail of np.mean; the empty
mean 0/0 is NaN. -/
def npDivNat (x : NpF) (n : ℕ) : NpF :=
  match x with
  | .fin q => if n = 0 then NpF.nan else NpF.fin (q / n)
  | .inf => NpF.inf
  | .ninf => NpF.ninf
  | .nan => NpF.nan

/-- np.mean over the modelled values. -/
def npMean (l : List NpF) : NpF := npDivNat (npSum l) l.length

/-- Multiplication by a positive rational constant (the * 100 of the MAPE). -/
def npMul (c : ℚ) : NpF → NpF
  | .fin q => .fin (c * q)
  | .inf => if 0 < c then NpF.inf else if c < 0 then NpF.ninf else NpF.nan
  | .ninf => if 0 < c then NpF.ninf else if c < 0 then NpF.inf else NpF.nan
  | .nan => .nan

/-- The metrics dictionary of get_metrics. The RMSE entry is the square
root of the MSE entry, irrational in general; it is fully determined by the
mse field and therefore not recorded separately. The MSE and MAE never
divide by a data value and stay finite; the MAPE divides by the observed
values and is recorded as a modelled float. -/
structure Metrics where
  mse : ℚ
  mae : ℚ
  mape : NpF
deriving DecidableEq

/-- ARIMAForecaster.get_metrics over the overlapping range of the observed
series and the fitted values: MSE = mean squared residual, MAE = mean
absolute residual, MAPE = mean(|residual / actual|) * 100 under numpy float
semantics. -/
def get_metrics (actual fitted : List ℚ) : Metrics :=
  let resid := List.zipWith (fun a f => a - f) actual fitted
  { mse := series_mean (resid.map fun x => x ^ 2)
    mae := series_mean (resid.map fun x => |x|)
    mape := npMul 100 (npMean
      (List.zipWith (fun a f => npAbs (npDiv (a - f) a)) actual fitted)) }

/-! ### Lemmas and theorems settling the claims -/

/-! ### Grid-search lemmas -/

lemma successes_mem (fit : ModelOrder → Option FitDiag) (cands : List ModelOrder)
    (s : ModelOrder × FitDiag) :
    s ∈ successes fit cands ↔ s.1 ∈ cands ∧ fit s.1 = some s.2 := by
  cases s with
  | mk c d =>
    simp only [successes, List.mem_filterMap, Option.map_eq_some']
    constructor
    · rintro ⟨a, ha, e, he, heq⟩
      cases heq
      exact ⟨ha, he⟩
    · rintro ⟨hc, hd⟩
      exact ⟨c, hc, d, hd, rfl⟩

lemma minFold_cons (b y : ModelOrder × ℚ) (ys : List (ModelOrder × ℚ)) :
    minFold b (y :: ys) = minFold (if y.2 < b.2 then y else b) ys := rfl

lemma grid_fold (ic : ICChoice) (fit : ModelOrder → Option FitDiag) :
    ∀ (cs : List ModelOrder) (rs : List Row) (b : Option (ModelOrder × ℚ)),
      cs.foldl (gridStep ic fit) ⟨rs, b⟩ =
        ⟨rs ++ (successes fit cs).map (rowOf ic),
         match b with
         | none => runBest ((successes fit cs).map (succIC ic))
         | some x => some (minFold x ((successes fit cs).map (succIC ic)))⟩ := by
  intro cs
  induction cs with
  | nil =>
    intro rs b
    cases b <;> simp [successes, runBest, minFold]
  | cons c cs ih =>
    intro rs b
    rw [List.foldl_cons]
    cases hc : fit c with
    | none =>
      have hstep : gridStep ic fit ⟨rs, b⟩ c = ⟨rs, b⟩ := by
        simp [gridStep, hc]
      rw [hstep, ih]
      simp [successes, List.filterMap_cons, hc]
    | some d =>
      cases b with
      | none =>
        have hstep : gridStep ic fit ⟨rs, none⟩ c =
            ⟨rs ++ [rowOf ic (c, d)], some (c, icValue ic d)⟩ := by
          simp [gridStep, hc, rowOf]
        rw [hstep, ih]
        simp [successes, List.filterMap_cons, hc, runBest, succIC]
      | some x =>
        cases x with
        | mk bo bv =>
          by_cases hv : icValue ic d < bv
          · have hstep : gridStep ic fit ⟨rs, some (bo, bv)⟩ c =
                ⟨rs ++ [rowOf ic (c, d)], some (c, icValue ic d)⟩ := by
              simp [gridStep, hc, rowOf, hv]
            rw [hstep, ih]
            simp [successes, List.filterMap_cons, hc, succIC, minFold_cons, hv]
          · have hstep : gridStep ic fit ⟨rs, some (bo, bv)⟩ c =
                ⟨rs ++ [rowOf ic (c, d)], some (bo, bv)⟩ := by
              simp [gridStep, hc, rowOf, hv]
            rw [hstep, ih]
            simp [successes, List.filterMap_cons, hc, succIC, minFold_cons, hv]

lemma minFold_le_init (l : List (ModelOrder × ℚ)) :
    ∀ b, (minFold b l).2 ≤ b.2 := by
  induction l with
  | nil =>
    intro b
    simp [minFold]
  | cons z zs ih =>
    intro b
    rw [minFold]
    by_cases h : z.2 < b.2
    · rw [if_pos h]
      exact le_trans (ih z) (le_of_lt h)
    · rw [if_neg h]
      exact ih b

lemma minFold_le (l : List (ModelOrder × ℚ)) :
    ∀ b y, y ∈ b :: l → (minFold b l).2 ≤ y.2 := by
  induction l with
  | nil =>
    intro b y hy
    rw [List.mem_singleton] at hy
    subst hy
    simp [minFold]
  | cons z zs ih =>
    intro b y hy
    rw [minFold]
    have hwb : (if z.2 < b.2 then z else b).2 ≤ b.2 := by
      split_ifs with h
      · exact le_of_lt h
      · exact le_rfl
    have hwz : (if z.2 < b.2 then z else b).2 ≤ z.2 := by
      split_ifs with h
      · exact le_rfl
      · exact not_lt.mp h
    rcases List.mem_cons.mp hy with rfl | hy2
    · exact le_trans (minFold_le_init zs _) hwb
    · rcases List.mem_cons.mp hy2 with rfl | hy3
      · exact le_trans (minFold_le_init zs _) hwz
      · exact ih _ y (List.mem_cons_of_mem _ hy3)

lemma minFold_first (l : List (ModelOrder × ℚ)) :
    ∀ b, ∃ l1 l2, b :: l = l1 ++ minFold b l :: l2 ∧
      ∀ y ∈ l1, (minFold b l).2 < y.2 := by
  induction l with
  | nil =>
    intro b
    exact ⟨[], [], by simp [minFold], by simp⟩
  | cons z zs ih =>
    intro b
    rw [minFold]
    by_cases h : z.2 < b.2
    · rw [if_pos h]
      obtain ⟨l1, l2, heq, hlt⟩ := ih z
      refine ⟨b :: l1, l2, ?_, ?_⟩
      · rw [List.cons_append, ← heq]
      · intro y hy
        rcases List.mem_cons.mp hy with rfl | hy2
        · exact lt_of_le_of_lt (minFold_le_init zs z) h
        · exact hlt y hy2
    · rw [if_neg h]
      obtain ⟨l1, l2, heq, hlt⟩ := ih b
      cases l1 with
      | nil =>
        rw [List.nil_append] at heq
        have hb : b = minFold b zs := (List.cons.injEq _ _ _ _).mp heq |>.1
        refine ⟨[], z :: zs, ?_, by simp⟩
        rw [List.nil_append, ← hb]
      | cons a l1' =>
        rw [List.cons_append] at heq
        have hba : b = a := (List.cons.injEq _ _ _ _).mp heq |>.1
        have hzs : zs = l1' ++ minFold b zs :: l2 := (List.cons.injEq _ _ _ _).mp heq |>.2
        have hrb : (minFold b zs).2 < b.2 := by
          have := hlt a (List.mem_cons_self a l1')
          rw [← hba] at this
          exact this
        refine ⟨b :: z :: l1', l2, ?_, ?_⟩
        · rw [List.cons_append, List.cons_append, ← hzs]
        · intro y hy
          rcases List.mem_cons.mp hy with rfl | hy2
          · exact hrb
          · rcases List.mem_cons.mp hy2 with rfl | hy3
            · exact lt_of_lt_of_le hrb (not_lt.mp h)
            · have := hlt y (List.mem_cons_of_mem a hy3)
              exact this

lemma minFold_mem (l : List (ModelOrder × ℚ)) (b : ModelOrder × ℚ) :
    minFold b l ∈ b :: l := by
  obtain ⟨l1, l2, heq, -⟩ := minFold_first l b
  rw [heq]
  exact List.mem_append_right l1 (List.mem_cons_self _ _)

lemma grid_search_best_eq (max_p max_d max_q : ℕ) (ic : ICChoice)
    (fit : ModelOrder → Option FitDiag) :
    (grid_search max_p max_d max_q ic fit).best =
      runBest ((successes fit (candidates max_p max_d max_q)).map (succIC ic)) := by
  rw [grid_search, grid_fold]

lemma grid_search_results_eq (max_p max_d max_q : ℕ) (ic : ICChoice)
    (fit : ModelOrder → Option FitDiag) :
    (grid_search max_p max_d max_q ic fit).results =
      (successes fit (candidates max_p max_d max_q)).map (rowOf ic) := by
  rw [grid_search, grid_fold]
  simp

/-- C1: on every series with at least one successfully fitting candidate,
grid_search retains the successfully fit candidate with the strictly smallest
configured-criterion value; at ties the candidate enumerated first in
(p, d, q) product order wins (everything enumerated before the retained best
has a strictly larger criterion value, since best-so-far is only replaced
under a strict less-than comparison). -/
theorem grid_search_selects_argmin (max_p max_d max_q : ℕ) (ic : ICChoice)
    (fit : ModelOrder → Option FitDiag)
    (hex : ∃ c ∈ candidates max_p max_d max_q, fit c ≠ none) :
    ∃ b l1 l2,
      (grid_search max_p max_d max_q ic fit).best = some b ∧
      (successes fit (candidates max_p max_d max_q)).map (succIC ic) =
        l1 ++ b :: l2 ∧
      (∀ y ∈ l1, b.2 < y.2) ∧
      ∀ y ∈ (successes fit (candidates max_p max_d max_q)).map (succIC ic),
        b.2 ≤ y.2 := by
  have hbest := grid_search_best_eq max_p max_d max_q ic fit
  obtain ⟨c, hc, hfc⟩ := hex
  have hmem : ∃ d, (c, d) ∈ successes fit (candidates max_p max_d max_q) := by
    cases hfd : fit c with
    | none => exact absurd hfd hfc
    | some d => exact ⟨d, (successes_mem fit _ (c, d)).mpr ⟨hc, hfd⟩⟩
  cases hSe : (successes fit (candidates max_p max_d max_q)).map (succIC ic) with
  | nil =>
    obtain ⟨d, hd⟩ := hmem
    have : succIC ic (c, d) ∈
        (successes fit (candidates max_p max_d max_q)).map (succIC ic) :=
      List.mem_map_of_mem _ hd
    rw [hSe] at this
    exact absurd this (List.not_mem_nil _)
  | cons x xs =>
    rw [hSe, runBest] at hbest
    obtain ⟨l1, l2, heq, hlt⟩ := minFold_first xs x
    refine ⟨minFold x xs, l1, l2, hbest, heq, hlt, ?_⟩
    intro y hy
    exact minFold_le xs x y hy

/-- C1 witness: two candidates (0,0,0) and (0,0,1) both fit with equal
criterion value 5; the theorem applies and yields the retained best. -/
theorem grid_search_selects_argmin_witness :
    ∃ b l1 l2,
      (grid_search 0 0 1 .aic (fun _ => some ⟨5, 7⟩)).best = some b ∧
      (successes (fun _ => some ⟨5, 7⟩) (candidates 0 0 1)).map (succIC .aic) =
        l1 ++ b :: l2 ∧
      (∀ y ∈ l1, b.2 < y.2) ∧
      ∀ y ∈ (successes (fun _ => some ⟨5, 7⟩) (candidates 0 0 1)).map
          (succIC .aic), b.2 ≤ y.2 :=
  grid_search_selects_argmin 0 0 1 .aic (fun _ => some ⟨5, 7⟩)
    ⟨(0, 0, 0), by decide, by decide⟩

/-- C5: the grid search enumerates exactly (max_p+1)*(max_d+1)*(max_q+1)
candidate orders, covering every (p, d, q) with p ≤ max_p, d ≤ max_d,
q ≤ max_q, and 48 of them at the default bounds 3/2/3. -/
theorem grid_search_candidate_space :
    (∀ max_p max_d max_q : ℕ,
      (candidates max_p max_d max_q).length =
        (max_p + 1) * (max_d + 1) * (max_q + 1) ∧
      ∀ c : ModelOrder, c ∈ candidates max_p max_d max_q ↔
        c.1 ≤ max_p ∧ c.2.1 ≤ max_d ∧ c.2.2 ≤ max_q) ∧
    (candidates 3 2 3).length = 48 := by
  have hflat : ∀ (n k : ℕ) (f : ℕ → List ModelOrder),
      (∀ i, (f i).length = k) → ((List.range n).flatMap f).length = n * k := by
    intro n k f hf
    rw [List.length_flatMap]
    rw [show List.length ∘ f = fun _ => k from funext hf]
    rw [List.map_const', List.sum_replicate, smul_eq_mul, List.length_range]
  have hlen : ∀ max_p max_d max_q : ℕ,
      (candidates max_p max_d max_q).length =
        (max_p + 1) * (max_d + 1) * (max_q + 1) := by
    intro mp md mq
    have inner : ∀ p : ℕ, ((List.range (md + 1)).flatMap fun d =>
        (List.range (mq + 1)).map fun q => (p, d, q)).length =
          (md + 1) * (mq + 1) :=
      fun p => hflat (md + 1) (mq + 1) _ (fun d => by simp)
    have houter := hflat (mp + 1) ((md + 1) * (mq + 1)) _ inner
    rw [candidates, houter]
    ring
  refine ⟨fun mp md mq => ⟨hlen mp md mq, ?_⟩, ?_⟩
  · intro c
    simp only [candidates, List.mem_flatMap, List.mem_map, List.mem_range,
      Nat.lt_succ_iff]
    constructor
    · rintro ⟨p, hp, d, hd, q, hq, rfl⟩
      exact ⟨hp, hd, hq⟩
    · rintro ⟨h1, h2, h3⟩
      exact ⟨c.1, h1, c.2.1, h2, c.2.2, h3, rfl⟩
  · rw [hlen]

/-- C7: a candidate whose fit raises is silently skipped: it contributes no
row to the results table and never becomes the selected model; and when every
candidate in the search space fails to fit, the results table is empty and the
search as a whole fails (the NoConvergentModelError outcome). -/
theorem grid_search_failure_handling (max_p max_d max_q : ℕ) (ic : ICChoice)
    (fit : ModelOrder → Option FitDiag) (c : ModelOrder)
    (hfail : fit c = none) :
    (∀ row ∈ (grid_search max_p max_d max_q ic fit).results,
      (row.p, row.d, row.q) ≠ c) ∧
    (∀ v : ℚ, (grid_search max_p max_d max_q ic fit).best ≠ some (c, v)) ∧
    ((∀ c2 ∈ candidates max_p max_d max_q, fit c2 = none) →
      (grid_search max_p max_d max_q ic fit).results = [] ∧
      grid_search_df max_p max_d max_q ic fit =
        Except.error "no convergent model") := by
  refine ⟨?_, ?_, ?_⟩
  · intro row hrow
    rw [grid_search_results_eq] at hrow
    obtain ⟨s, hs, hrfl⟩ := List.mem_map.mp hrow
    have hm := (successes_mem fit _ s).mp hs
    intro hcontra
    rw [← hrfl] at hcontra
    have : s.1 = c := by
      cases s with
      | mk s1 s2 =>
        cases s1 with
        | mk a bc =>
          cases bc with
          | mk b2 c2 =>
            simpa [rowOf] using hcontra
    rw [this] at hm
    rw [hm.2] at hfail
    exact Option.noConfusion hfail
  · intro v hcontra
    rw [grid_search_best_eq] at hcontra
    cases hSe : (successes fit (candidates max_p max_d max_q)).map (succIC ic) with
    | nil =>
      rw [hSe] at hcontra
      exact Option.noConfusion hcontra
    | cons x xs =>
      rw [hSe, runBest, Option.some_inj] at hcontra
      have hmem : (c, v) ∈ x :: xs := by
        rw [← hcontra]
        exact minFold_mem xs x
      rw [← hSe] at hmem
      obtain ⟨s, hs, hrfl⟩ := List.mem_map.mp hmem
      have hm := (successes_mem fit _ s).mp hs
      have hs1 : s.1 = c := congrArg Prod.fst hrfl
      rw [hs1, hfail] at hm
      exact Option.noConfusion hm.2
  · intro hall
    have hsucc : successes fit (candidates max_p max_d max_q) = [] := by
      rw [successes, List.filterMap_eq_nil_iff]
      intro a ha
      rw [hall a ha]
      rfl
    have hres : (grid_search max_p max_d max_q ic fit).results = [] := by
      rw [grid_search_results_eq, hsucc]
      rfl
    refine ⟨hres, ?_⟩
    rw [grid_search_df]
    simp [hres]

/-- C7 witness: with a single candidate (0,0,0) that always fails to fit,
no row is produced, nothing is selected, and the search errors out. -/
theorem grid_search_failure_handling_witness :
    (∀ row ∈ (grid_search 0 0 0 .aic (fun _ => none)).results,
      (row.p, row.d, row.q) ≠ ((0, 0, 0) : ModelOrder)) ∧
    (∀ v : ℚ, (grid_search 0 0 0 .aic (fun _ => none)).best ≠
      some ((0, 0, 0), v)) ∧
    ((∀ c2 ∈ candidates 0 0 0, (fun (_ : ModelOrder) =>
        (none : Option FitDiag)) c2 = none) →
      (grid_search 0 0 0 .aic (fun _ => none)).results = [] ∧
      grid_search_df 0 0 0 .aic (fun _ => none) =
        Except.error "no convergent model") :=
  grid_search_failure_handling 0 0 0 .aic (fun _ => none) (0, 0, 0) rfl

lemma forecast_years_eq (last_year : ℤ) (steps : ℕ) :
    forecast_years last_year steps =
      (List.range steps).map fun i : ℕ => last_year + 1 + (i : ℤ) := by
  rw [forecast_years, arange]
  have h : last_year + steps + 1 - (last_year + 1) = (steps : ℤ) := by ring
  rw [h, Int.toNat_natCast]

lemma forecast_years_length (last_year : ℤ) (steps : ℕ) :
    (forecast_years last_year steps).length = steps := by
  rw [forecast_years_eq, List.length_map, List.length_range]

lemma map_year_zipWith (region_name : String) :
    ∀ (ys : List ℤ) (ps : List (ℚ × ℚ × ℚ)), ys.length ≤ ps.length →
      (List.zipWith (fun y p => FRow.mk region_name y p.1 p.2.1 p.2.2) ys
        ps).map (fun r => r.year) = ys := by
  intro ys
  induction ys with
  | nil =>
    intro ps h
    simp
  | cons y ys ih =>
    intro ps h
    cases ps with
    | nil => simp at h
    | cons p ps =>
      rw [List.zipWith_cons_cons, List.map_cons]
      have hlen : ys.length ≤ ps.length := by simpa using h
      rw [ih ps hlen]

/-- C3: for every fitted model and horizon, the forecast output contains
exactly steps rows whose period labels are last_year+1 .. last_year+steps in
ascending order; the lengths of predicted_mean and conf_int equal steps
(guaranteed by the model's get_forecast and required by the DataFrame
constructor). -/
theorem forecast_horizon_rows (region_name : String) (last_year : ℤ)
    (steps : ℕ) (mean : List ℚ) (ci : List (ℚ × ℚ))
    (hm : mean.length = steps) (hc : ci.length = steps) :
    (mk_forecast_df region_name last_year steps mean ci).length = steps ∧
    (mk_forecast_df region_name last_year steps mean ci).map
        (fun r => r.year) =
      (List.range steps).map (fun i : ℕ => last_year + 1 + (i : ℤ)) := by
  have hzip : (mean.zip ci).length = steps := by
    rw [List.length_zip, hm, hc, min_self]
  constructor
  · rw [mk_forecast_df, List.length_zipWith, forecast_years_length, hzip,
      min_self]
  · rw [mk_forecast_df, map_year_zipWith region_name _ _
      (by rw [forecast_years_length, hzip]), forecast_years_eq]

/-- C3 witness: a 3-step forecast from last observed year 2020 yields 3 rows
labelled 2021, 2022, 2023. -/
theorem forecast_horizon_rows_witness :
    (mk_forecast_df "National" 2020 3 [1, 2, 3]
        [(0, 2), (1, 3), (2, 4)]).length = 3 ∧
    (mk_forecast_df "National" 2020 3 [1, 2, 3]
        [(0, 2), (1, 3), (2, 4)]).map (fun r => r.year) =
      (List.range 3).map (fun i : ℕ => 2020 + 1 + (i : ℤ)) :=
  forecast_horizon_rows "National" 2020 3 [1, 2, 3] [(0, 2), (1, 3), (2, 4)]
    rfl rfl

lemma mem_zipWith_decomp {α β γ : Type} (f : α → β → γ) :
    ∀ (l1 : List α) (l2 : List β) (c : γ), c ∈ List.zipWith f l1 l2 →
      ∃ a b, a ∈ l1 ∧ b ∈ l2 ∧ c = f a b := by
  intro l1
  induction l1 with
  | nil =>
    intro l2 c hc
    simp at hc
  | cons a l1 ih =>
    intro l2 c hc
    cases l2 with
    | nil => simp at hc
    | cons b l2 =>
      rw [List.zipWith_cons_cons] at hc
      rcases List.mem_cons.mp hc with rfl | h2
      · exact ⟨a, b, List.mem_cons_self _ _, List.mem_cons_self _ _, rfl⟩
      · obtain ⟨x, y, hx, hy, heq⟩ := ih l2 c h2
        exact ⟨x, y, List.mem_cons_of_mem _ hx, List.mem_cons_of_mem _ hy,
          heq⟩

/-- C4: every forecast row satisfies lower_bound ≤ point_forecast ≤
upper_bound, given that the forecast standard errors are non-negative. -/
theorem forecast_ci_bounds (mean se : List ℚ) (hse : ∀ s ∈ se, 0 ≤ s) :
    ∀ row ∈ conf_int_rows z95 mean se,
      row.1 ≤ row.2.1 ∧ row.2.1 ≤ row.2.2 := by
  intro row hrow
  obtain ⟨m, s, hm, hs, rfl⟩ := mem_zipWith_decomp _ mean se row hrow
  have h0 : 0 ≤ s := hse s hs
  have hz : (0 : ℚ) ≤ z95 := by norm_num [z95]
  have hzs : 0 ≤ z95 * s := mul_nonneg hz h0
  constructor
  · simp only
    linarith
  · simp only
    linarith

/-- C4 witness: the interval row around the point forecast 10 with standard
error 2 brackets the point forecast. -/
theorem forecast_ci_bounds_witness :
    ((10 - z95 * 2, 10, 10 + z95 * 2) : ℚ × ℚ × ℚ).1 ≤
      ((10 - z95 * 2, 10, 10 + z95 * 2) : ℚ × ℚ × ℚ).2.1 ∧
    ((10 - z95 * 2, 10, 10 + z95 * 2) : ℚ × ℚ × ℚ).2.1 ≤
      ((10 - z95 * 2, 10, 10 + z95 * 2) : ℚ × ℚ × ℚ).2.2 :=
  forecast_ci_bounds [10] [2] (by norm_num)
    ((10 - z95 * 2, 10, 10 + z95 * 2) : ℚ × ℚ × ℚ)
    (List.mem_singleton.mpr rfl)

/-- C10: calling ARIMAForecaster.forecast with best_model = None (neither
fit nor a successful grid_search has run) always raises ValueError and never
returns a forecast. -/
theorem forecast_unfitted_raises {M : Type}
    (get_forecast : M → ℕ → List ℚ × List (ℚ × ℚ)) (best_model : Option M)
    (h : best_model = none) (steps : ℕ) :
    ARIMAForecaster.forecast best_model get_forecast steps =
      Except.error "Model not fitted. Call fit() first." := by
  rw [h]
  rfl

/-- C10 witness: the unfitted forecaster errors at horizon 5. -/
theorem forecast_unfitted_raises_witness :
    ARIMAForecaster.forecast (none : Option Unit) (fun _ _ => ([], [])) 5 =
      Except.error "Model not fitted. Call fit() first." :=
  forecast_unfitted_raises (fun _ _ => ([], [])) none rfl 5

/-- C2: the assigned label depends only on comparing the region's tfr and
expenditure with the two thresholds, >= on the high side and < on the low
side, and is always one of the four configured labels (never the Unknown
default); on the spec's 4 regions the median thresholds are (2.25, 10000)
and the four regions land in the four distinct segments. -/
theorem assign_segments_quadrants :
    (∀ (cfg : QuadrantConfig) (tt et : ℚ) (r : XRegion),
      segment_label cfg tt et r ∈
        [cfg.high_tfr_high_exp, cfg.high_tfr_low_exp, cfg.low_tfr_high_exp,
          cfg.low_tfr_low_exp]) ∧
    calculate_thresholds defaultQuadrantConfig quadrant4 = (9 / 4, 10000) ∧
    assign_segments defaultQuadrantConfig
        (calculate_thresholds defaultQuadrantConfig quadrant4).1
        (calculate_thresholds defaultQuadrantConfig quadrant4).2 quadrant4 =
      [⟨"A", 3, 15000, "Stars"⟩, ⟨"B", 3 / 2, 15000, "Cash Cows"⟩,
        ⟨"C", 3, 5000, "Developing"⟩, ⟨"D", 3 / 2, 5000, "Saturated"⟩] := by
  have hthr : calculate_thresholds defaultQuadrantConfig quadrant4 =
      (9 / 4, 10000) := by
    norm_num [calculate_thresholds, defaultQuadrantConfig, quadrant4,
      series_median, sortOrd, insertOrd]
  refine ⟨?_, hthr, ?_⟩
  case refine_2 =>
    rw [hthr]
    norm_num [assign_segments, segment_label, quadrant4,
      defaultQuadrantConfig]
  intro cfg tt et r
  rw [segment_label]
  split_ifs with h1 h2 h3 h4
  · simp
  · simp
  · simp
  · simp
  · exfalso
    rcases le_or_lt tt r.tfr with ha | ha
    · rcases le_or_lt et r.expenditure with hb | hb
      · exact h1 ⟨ha, hb⟩
      · exact h2 ⟨ha, hb⟩
    · rcases le_or_lt et r.expenditure with hb | hb
      · exact h3 ⟨ha, hb⟩
      · exact h4 ⟨ha, hb⟩

/-- C9: the full quadrant computation (thresholds, assignment, statistics)
is a pure function of the cross-section and the configuration: two runs on
identical input produce identical output. -/
theorem run_quadrant_deterministic (cfg cfg2 : QuadrantConfig)
    (df df2 : List XRegion) (hcfg : cfg = cfg2) (hdf : df = df2) :
    run_quadrant cfg df = run_quadrant cfg2 df2 := by
  rw [hcfg, hdf]

/-- C9 witness: two runs on the spec's 4-region input coincide. -/
theorem run_quadrant_deterministic_witness :
    run_quadrant defaultQuadrantConfig quadrant4 =
      run_quadrant defaultQuadrantConfig quadrant4 :=
  run_quadrant_deterministic defaultQuadrantConfig defaultQuadrantConfig
    quadrant4 quadrant4 rfl rfl

lemma insertOrd_length {α : Type} (r : α → α → Prop) [DecidableRel r]
    (x : α) : ∀ l : List α, (insertOrd r x l).length = l.length + 1 := by
  intro l
  induction l with
  | nil => rfl
  | cons y ys ih =>
    rw [insertOrd]
    split_ifs with h
    · simp
    · simp [ih]

lemma sortOrd_length {α : Type} (r : α → α → Prop) [DecidableRel r]
    (l : List α) : (sortOrd r l).length = l.length := by
  induction l with
  | nil => rfl
  | cons y ys ih =>
    rw [sortOrd, List.foldr_cons, insertOrd_length]
    rw [sortOrd] at ih
    rw [ih]
    rfl

lemma forecast_region_short (df : List Obs) (region_name : String)
    (fit_forecast : List ℚ → Option (List ℚ × List (ℚ × ℚ)))
    (forecast_steps : ℕ)
    (h : (df.filter fun o => o.region_name = region_name).length < 5) :
    forecast_region df region_name fit_forecast forecast_steps = none := by
  rw [forecast_region, if_pos]
  rw [region_data, sortOrd_length]
  exact h

lemma forecast_region_rows (df : List Obs) (region_name : String)
    (fit_forecast : List ℚ → Option (List ℚ × List (ℚ × ℚ)))
    (forecast_steps : ℕ) (l : List FRow)
    (h : forecast_region df region_name fit_forecast forecast_steps = some l) :
    ∀ row ∈ l, row.region_name = region_name := by
  intro row hrow
  by_cases hlen : (region_data df region_name).length < 5
  · rw [forecast_region, if_pos hlen] at h
    exact Option.noConfusion h
  · rw [forecast_region, if_neg hlen] at h
    cases hf : fit_forecast ((region_data df region_name).map (·.value)) with
    | none =>
      rw [hf] at h
      exact Option.noConfusion h
    | some mc =>
      rw [hf] at h
      cases hmax : ((region_data df region_name).map (·.year)).max? with
      | none =>
        rw [hmax] at h
        exact Option.noConfusion h
      | some last_year =>
        rw [hmax] at h
        have hl : mk_forecast_df region_name last_year forecast_steps
            mc.1 mc.2 = l := Option.some.inj h
        rw [← hl, mk_forecast_df] at hrow
        obtain ⟨y, p, -, -, hr⟩ :=
          mem_zipWith_decomp _ _ _ row hrow
        rw [hr]

lemma regional_log_mono (df : List Obs)
    (fit_forecast : List ℚ → Option (List ℚ × List (ℚ × ℚ)))
    (forecast_steps : ℕ) :
    ∀ (regions : List String)
      (acc : List (List FRow) × List (String × Bool)) (x : String × Bool),
      x ∈ acc.2 →
      x ∈ (regions.foldl (regional_step df fit_forecast forecast_steps)
        acc).2 := by
  intro regions
  induction regions with
  | nil =>
    intro acc x hx
    exact hx
  | cons r rs ih =>
    intro acc x hx
    rw [List.foldl_cons]
    apply ih
    rw [regional_step]
    cases forecast_region df r fit_forecast forecast_steps with
    | none => exact List.mem_append_left _ hx
    | some fdf => exact List.mem_append_left _ hx

lemma regional_fold_spec (df : List Obs)
    (fit_forecast : List ℚ → Option (List ℚ × List (ℚ × ℚ)))
    (forecast_steps : ℕ) :
    ∀ (regions : List String)
      (acc : List (List FRow) × List (String × Bool)),
      ((regions.foldl (regional_step df fit_forecast forecast_steps)
          acc).2.length = acc.2.length + regions.length) ∧
      (∀ l ∈ (regions.foldl (regional_step df fit_forecast forecast_steps)
          acc).1, l ∈ acc.1 ∨ ∃ r ∈ regions,
          forecast_region df r fit_forecast forecast_steps = some l) ∧
      (∀ r ∈ regions,
        forecast_region df r fit_forecast forecast_steps = none →
        (r, false) ∈ (regions.foldl
          (regional_step df fit_forecast forecast_steps) acc).2) := by
  intro regions
  induction regions with
  | nil =>
    intro acc
    refine ⟨by simp, fun l hl => Or.inl hl, ?_⟩
    intro r hr
    exact absurd hr (List.not_mem_nil r)
  | cons r0 rs ih =>
    intro acc
    rw [List.foldl_cons]
    cases hfr : forecast_region df r0 fit_forecast forecast_steps with
    | none =>
      have hstep : regional_step df fit_forecast forecast_steps acc r0 =
          (acc.1, acc.2 ++ [(r0, false)]) := by
        rw [regional_step, hfr]
      rw [hstep]
      obtain ⟨ihlen, ihmem, ihskip⟩ := ih (acc.1, acc.2 ++ [(r0, false)])
      refine ⟨?_, ?_, ?_⟩
      · rw [ihlen]
        simp
        omega
      · intro l hl
        rcases ihmem l hl with hin | ⟨r, hr, hsome⟩
        · exact Or.inl hin
        · exact Or.inr ⟨r, List.mem_cons_of_mem r0 hr, hsome⟩
      · intro r hr hnone
        rcases List.mem_cons.mp hr with rfl | hr2
        · apply regional_log_mono
          exact List.mem_append_right _ (List.mem_singleton.mpr rfl)
        · exact ihskip r hr2 hnone
    | some fdf =>
      have hstep : regional_step df fit_forecast forecast_steps acc r0 =
          (acc.1 ++ [fdf], acc.2 ++ [(r0, true)]) := by
        rw [regional_step, hfr]
      rw [hstep]
      obtain ⟨ihlen, ihmem, ihskip⟩ := ih (acc.1 ++ [fdf], acc.2 ++ [(r0, true)])
      refine ⟨?_, ?_, ?_⟩
      · rw [ihlen]
        simp
        omega
      · intro l hl
        rcases ihmem l hl with hin | ⟨r, hr, hsome⟩
        · rcases List.mem_append.mp hin with hin2 | hone
          · exact Or.inl hin2
          · refine Or.inr ⟨r0, List.mem_cons_self r0 rs, ?_⟩
            rw [← List.mem_singleton.mp hone] at hfr
            exact hfr
        · exact Or.inr ⟨r, List.mem_cons_of_mem r0 hr, hsome⟩
      · intro r hr hnone
        rcases List.mem_cons.mp hr with rfl | hr2
        · rw [hfr] at hnone
          exact Option.noConfusion hnone
        · exact ihskip r hr2 hnone

/-- C6: a region with fewer than 5 historical rows is skipped by
forecast_region, is logged as a skip by the regional loop, contributes no
row to the collected regional results, and does not prevent the loop from
processing every region (the log covers all of them). -/
theorem regional_insufficient_data_skipped (df : List Obs)
    (regions : List String)
    (fit_forecast : List ℚ → Option (List ℚ × List (ℚ × ℚ)))
    (forecast_steps : ℕ) (r : String) (hr : r ∈ regions)
    (hshort : (df.filter fun o => o.region_name = r).length < 5) :
    forecast_region df r fit_forecast forecast_steps = none ∧
    (r, false) ∈
      (forecast_regional df regions fit_forecast forecast_steps).2 ∧
    (∀ row ∈
      (forecast_regional df regions fit_forecast forecast_steps).1.flatten,
      row.region_name ≠ r) ∧
    (forecast_regional df regions fit_forecast forecast_steps).2.length =
      regions.length := by
  have hnone := forecast_region_short df r fit_forecast forecast_steps hshort
  obtain ⟨hlen, hmem, hskip⟩ :=
    regional_fold_spec df fit_forecast forecast_steps regions ([], [])
  refine ⟨hnone, hskip r hr hnone, ?_, ?_⟩
  · intro row hrow hname
    obtain ⟨l, hl, hrl⟩ := List.mem_flatten.mp hrow
    rcases hmem l hl with hin | ⟨r2, hr2, hsome⟩
    · exact absurd hin (List.not_mem_nil l)
    · have := forecast_region_rows df r2 fit_forecast forecast_steps l
        hsome row hrl
      rw [hname] at this
      rw [this] at hnone
      rw [hsome] at hnone
      exact Option.noConfusion hnone
  · rw [forecast_regional] at *
    rw [hlen]
    simp

/-- C6 witness: the single region A has one historical row, is skipped and
logged, and the loop completes. -/
theorem regional_insufficient_data_skipped_witness :
    forecast_region [⟨"A", 2020, 1⟩] "A" (fun _ => none) 5 = none ∧
    ("A", false) ∈
      (forecast_regional [⟨"A", 2020, 1⟩] ["A"] (fun _ => none) 5).2 ∧
    (∀ row ∈
      (forecast_regional [⟨"A", 2020, 1⟩] ["A"] (fun _ => none) 5).1.flatten,
      row.region_name ≠ "A") ∧
    (forecast_regional [⟨"A", 2020, 1⟩] ["A"] (fun _ => none) 5).2.length =
      1 :=
  regional_insufficient_data_skipped [⟨"A", 2020, 1⟩] ["A"] (fun _ => none)
    5 "A" (by simp) (by simp)

lemma npSum_fins : ∀ (l : List ℚ) (q : ℚ),
    (l.map NpF.fin).foldl npAdd (NpF.fin q) = NpF.fin (q + l.sum) := by
  intro l
  induction l with
  | nil =>
    intro q
    simp [npAdd]
  | cons x xs ih =>
    intro q
    rw [List.map_cons, List.foldl_cons]
    have : npAdd (NpF.fin q) (NpF.fin x) = NpF.fin (q + x) := rfl
    rw [this, ih]
    rw [List.sum_cons]
    ring_nf

lemma mape_zip_fins (actual : List ℚ) :
    ∀ fitted : List ℚ, (∀ a ∈ actual, a ≠ 0) →
      List.zipWith (fun a f => npAbs (npDiv (a - f) a)) actual fitted =
        (List.zipWith (fun a f => |(a - f) / a|) actual fitted).map
          NpF.fin := by
  induction actual with
  | nil =>
    intro fitted h
    simp
  | cons a as ih =>
    intro fitted h
    cases fitted with
    | nil => simp
    | cons f fs =>
      rw [List.zipWith_cons_cons, List.zipWith_cons_cons, List.map_cons]
      have ha : a ≠ 0 := h a (List.mem_cons_self a as)
      have hd : npDiv (a - f) a = NpF.fin ((a - f) / a) := by
        rw [npDiv, if_neg ha]
      rw [hd]
      have hab : npAbs (NpF.fin ((a - f) / a)) = NpF.fin |(a - f) / a| := rfl
      rw [hab]
      rw [ih fs fun x hx => h x (List.mem_cons_of_mem a hx)]

/-- C8 counterexample: on the observed series [0, 1] with fitted values
[1, 1] (the first observation is exactly zero), get_metrics returns a
defined value rather than failing: the division by the zero observation
propagates an infinity into the reported MAPE under suppressed warnings,
while MSE and MAE stay finite. -/
theorem get_metrics_zero_actual_returns :
    get_metrics [0, 1] [1, 1] = ⟨1 / 2, 1 / 2, NpF.inf⟩ := by
  rw [get_metrics]
  norm_num [series_mean, npDiv, npAbs, npMean, npSum, npAdd, npDivNat,
    npMul]

/-- C8 (amended): get_metrics computes MAPE as
mean(|residual / actual|) * 100 over the overlapping range whenever no
observed value is zero; a zero observed value instead propagates a
non-finite float into the MAPE silently (see the counterexample), it does
not raise. -/
theorem get_metrics_mape_formula (actual fitted : List ℚ)
    (hne : actual ≠ []) (hfe : fitted ≠ [])
    (hnz : ∀ a ∈ actual, a ≠ 0) :
    (get_metrics actual fitted).mape =
      NpF.fin (100 * series_mean
        (List.zipWith (fun a f => |(a - f) / a|) actual fitted)) := by
  rw [get_metrics]
  have hzip := mape_zip_fins actual fitted hnz
  set L := List.zipWith (fun a f => |(a - f) / a|) actual fitted with hL
  have hlen : L.length ≠ 0 := by
    rw [hL, List.length_zipWith]
    have h1 : 0 < actual.length := List.length_pos.mpr hne
    have h2 : 0 < fitted.length := List.length_pos.mpr hfe
    omega
  have hmean : npMean (L.map NpF.fin) = NpF.fin (series_mean L) := by
    rw [npMean, npSum, npSum_fins, List.length_map, npDivNat]
    rw [if_neg hlen, zero_add, series_mean]
  rw [hzip, hmean]
  rfl

/-- C8 amended-claim witness: on the all-nonzero series [1, 2] against
fitted values [1, 1], the MAPE is the exact percentage formula. -/
theorem get_metrics_mape_formula_witness :
    (get_metrics [1, 2] [1, 1]).mape =
      NpF.fin (100 * series_mean
        (List.zipWith (fun a f => |(a - f) / a|) [1, 2] [1, 1])) :=
  get_metrics_mape_formula [1, 2] [1, 1] (by simp) (by simp) (by norm_num)

end IndoDemo
